import Mathlib

/-!
Verification of the babymonitor repository (Go) against its specification.

The definitions below are a shallow embedding of the functions in
src/babymonitor.go: configuration-derived sizing from readConfig, the level
trigger detector (processLevelTrigger, checkLevels), the action dispatcher
(callAction), the HTTP routing (streamHandler and the default mux), and the
per-client end-signal channel.  Machine integers are modelled as Nat and Int
with explicit int16 wrap where it matters; float64 arithmetic in checkLevels
is idealised as exact rational arithmetic.
-/

namespace Babymonitor

/-- Constant from babymonitor.go: sampleRate = 44100. -/
def sampleRate : Nat := 44100

/-- Constant from babymonitor.go: samplesCount = 128, the number of samples
read per frame. -/
def samplesCount : Nat := 128

/-- Largest int16 value, math.MaxInt16 in Go. -/
def maxInt16 : Int := 32767

/-- Smallest int16 value. -/
def minInt16 : Int := -32768

/-- From readConfig: measSampleCount = config.LevelTrigger.MeasureTime * sampleRate / 1000
(Go integer division). -/
def measSampleCountOf (measureTimeMs : Nat) : Nat :=
  measureTimeMs * sampleRate / 1000

/-- From readConfig: the length of the samplesLevels buffer as allocated by
make, namely measSampleCount/samplesCount + measSampleCount%samplesCount. -/
def samplesLevelsLenOf (measureTimeMs : Nat) : Nat :=
  measSampleCountOf measureTimeMs / samplesCount +
    measSampleCountOf measureTimeMs % samplesCount

/-- Two-complement negation on int16: in Go, -(-32768) overflows back
to -32768.  Valid for inputs in the int16 range. -/
def negInt16 (a : Int) : Int :=
  if a = minInt16 then minInt16 else -a

/-- The abs function of babymonitor.go on int16, and the inlined
`if v < 0 then v = -v` of checkLevels: both negate via int16 arithmetic. -/
def abs (a : Int) : Int :=
  if a < 0 then negInt16 a else a

/-- The mutable state of the level trigger detector: the samplesLevels
buffer and the samplesBufferCount fill counter. -/
structure LevelState where
  samplesLevels : List Int
  samplesBufferCount : Nat
deriving DecidableEq

/-- The copy loop of processLevelTrigger:
for i := range pcmData { samplesLevels[start+i] = pcmData[i] }.
Each store checks its index against the buffer length; none models the Go
runtime index-out-of-range panic. -/
def writeFrame : List Int → Nat → List Int → Option (List Int)
  | buf, _, [] => some buf
  | buf, start, v :: rest =>
    if start < buf.length then writeFrame (buf.set start v) (start + 1) rest
    else none

/-- processLevelTrigger from babymonitor.go.  Returns none when the copy
loop would panic with an out-of-range index; otherwise returns the new
state and whether a checkLevels evaluation is launched (go checkLevels()). -/
def processLevelTrigger (st : LevelState) (pcmData : List Int) :
    Option (LevelState × Bool) :=
  if st.samplesLevels.length ≤ st.samplesBufferCount then
    some (st, false)
  else
    let start := st.samplesBufferCount / samplesCount
    match writeFrame st.samplesLevels start pcmData with
    | none => none
    | some buf =>
      let cnt := st.samplesBufferCount + samplesCount
      some (⟨buf, cnt⟩, decide (buf.length ≤ cnt))

/-- The detector state right after readConfig: a zeroed buffer of the
allocated length and a zero fill count. -/
def initLevelState (measureTimeMs : Nat) : LevelState :=
  ⟨List.replicate (samplesLevelsLenOf measureTimeMs) 0, 0⟩

/-- Feed a sequence of frames through processLevelTrigger, propagating an
index panic. -/
def runFrames : LevelState → List (List Int) → Option LevelState
  | st, [] => some st
  | st, f :: fs =>
    match processLevelTrigger st f with
    | none => none
    | some (st2, _) => runFrames st2 fs

/-- Events affecting the fill counter: a frame arrival handled by
processLevelTrigger, or a checkLevels completion (which resets the counter
to 0). -/
inductive DetectorEvent
  | frame
  | evalDone
deriving DecidableEq

/-- The fill-counter transition of one event, as performed by
processLevelTrigger (drop when full, else add samplesCount) and by the end
of checkLevels (reset to 0). -/
def stepCount (len cnt : Nat) : DetectorEvent → Nat
  | .frame => if len ≤ cnt then cnt else cnt + samplesCount
  | .evalDone => 0

/-- Run the fill counter over a sequence of events. -/
def runCount (len : Nat) : Nat → List DetectorEvent → Nat
  | cnt, [] => cnt
  | cnt, e :: es => runCount len (stepCount len cnt e) es

/-- An entry of config.Actions: url, type and payload. -/
structure ActionSpec where
  url : String
  reqType : String
  payload : String
deriving DecidableEq

/-- The configuration fields consulted by checkLevels:
config.LevelTrigger.Level, config.TriggerPauseSec and config.Actions. -/
structure TrigConfig where
  level : ℚ
  triggerPauseSec : Int
  actions : List ActionSpec

/-- The mean computed by checkLevels: accumulate abs(v)/MaxInt16 over the
samplesLevels buffer (with the int16 wrap of the inlined negation) and
divide by the buffer length.  float64 arithmetic is idealised as ℚ. -/
def meanOf (samples : List Int) : ℚ :=
  (samples.map (fun v => ((abs v : Int) : ℚ) / (maxInt16 : ℚ))).sum /
    (samples.length : ℚ)

/-- The mean as the specification words it, for comparison with meanOf:
mean = (Σ abs(sample_i) / peak_amplitude) / window_length, with
mathematical absolute value and peak 32767. -/
def specMeanOf (samples : List Int) : ℚ :=
  ((samples.map (fun v => (v.natAbs : ℚ))).sum / (maxInt16 : ℚ)) /
    (samples.length : ℚ)

/-- The outcome of checkLevels: whether the trigger fired, the actions
dispatched (one go callAction per configured action when firing), the new
triggerTimestamp, and the reset fill counter. -/
structure CheckResult where
  fired : Bool
  dispatched : List ActionSpec
  triggerTimestamp : Int
  samplesBufferCount : Nat
deriving DecidableEq

/-- checkLevels from babymonitor.go: fire all configured actions when the
mean reaches the level and the pause has elapsed since triggerTimestamp;
firing sets triggerTimestamp to now; the fill counter is reset to 0 in
every case.  Wall-clock time is passed in as now (time.Now().Unix()). -/
def checkLevels (cfg : TrigConfig) (samples : List Int)
    (triggerTimestamp now : Int) : CheckResult :=
  let mean := meanOf samples
  let t := now - triggerTimestamp
  if cfg.level ≤ mean ∧ cfg.triggerPauseSec ≤ t then
    ⟨true, cfg.actions, now, 0⟩
  else
    ⟨false, [], triggerTimestamp, 0⟩

/-- What the network does to one outbound request of callAction: either a
transport error from client.Do, or a response with a status code and a
body. -/
inductive ActionOutcome
  | netErr (msg : String)
  | httpResp (status : Nat) (body : List Nat)

/-- http.StatusBadRequest. -/
def statusBadRequest : Nat := 400

/-- callAction from babymonitor.go, as a function of the network outcome of
its single request: a transport error is returned as (nil, err); a response
with status ≥ 400 returns (nil, nil) since err is nil at that point; an OK
response returns its body. -/
def callAction (outcome : ActionOutcome) : Option (List Nat) × Option String :=
  match outcome with
  | .netErr m => (none, some m)
  | .httpResp status body =>
    if statusBadRequest ≤ status then (none, none) else (some body, none)

/-- The fan-out of the firing loop: one callAction per dispatched action,
each with its own independent network outcome. -/
def dispatchAll (actions : List ActionSpec)
    (outcome : ActionSpec → ActionOutcome) :
    List (Option (List Nat) × Option String) :=
  actions.map (fun a => callAction (outcome a))

/-- One full evaluation: run checkLevels, then dispatch every selected
action against the given network outcomes. -/
def fireAndDispatch (cfg : TrigConfig) (samples : List Int) (ts now : Int)
    (outcome : ActionSpec → ActionOutcome) :
    CheckResult × List (Option (List Nat) × Option String) :=
  let r := checkLevels cfg samples ts now
  (r, dispatchAll r.dispatched outcome)

/-- HTTP request method: GET or anything else. -/
inductive Method
  | GET
  | other (name : String)
deriving DecidableEq

/-- An inbound HTTP request: method and path. -/
structure Request where
  method : Method
  path : String
deriving DecidableEq

/-- An HTTP response head: status, content type, and whether the body is
the continuous mp3 stream. -/
structure Response where
  status : Nat
  contentType : String
  streaming : Bool
deriving DecidableEq

/-- The path registered for the stream handler. -/
def streamPath : String := "/stream"

/-- The response of http.NotFound. -/
def notFoundResponse : Response :=
  { status := 404, contentType := "text/plain", streaming := false }

/-- The response streamHandler sends to a GET: WriteHeader(201) with
Content-Type audio/mpeg and the continuous encoded body. -/
def streamResponse : Response :=
  { status := 201, contentType := "audio/mpeg", streaming := true }

/-- The handler returned by streamHandler(): a non-GET request is handed to
the fallback dispatcher (http.DefaultServeMux.ServeHTTP in the source); a
GET is answered with 201 and the stream. -/
def streamHandler (fallback : Request → Option Response) (r : Request) :
    Option Response :=
  if r.method = Method.GET then some streamResponse else fallback r

/-- The default mux as configured by startHttpStreamingServer: /stream is
routed to streamHandler, whose fallback dispatcher is this same mux; every
other path hits the catch-all handler, which calls http.NotFound.  The fuel
argument bounds the call stack; none models non-termination. -/
def serveMux : Nat → Request → Option Response
  | 0, _ => none
  | fuel + 1, r =>
    if r.path = streamPath then streamHandler (serveMux fuel) r
    else some notFoundResponse

/-- A buffered bool channel: its capacity and the number of values
currently buffered. -/
structure BoolChan where
  cap : Nat
  buffered : Nat
deriving DecidableEq

/-- A send on a buffered channel with no waiting receiver: it completes
when the buffer has room, otherwise it blocks (none). -/
def chanSend (c : BoolChan) : Option BoolChan :=
  if c.buffered < c.cap then some ⟨c.cap, c.buffered + 1⟩ else none

/-- A receive on a buffered channel with no waiting sender: it completes
when the buffer is non-empty, otherwise it blocks (none). -/
def chanRecv (c : BoolChan) : Option BoolChan :=
  if 0 < c.buffered then some ⟨c.cap, c.buffered - 1⟩ else none

/-- The end-signal channel of a fresh Client: make(chan bool, 1). -/
def newChanEnd : BoolChan := ⟨1, 0⟩

/-- A method name used in concrete requests. -/
def postName : String := "POST"

/-- A path other than the stream path. -/
def rootPath : String := "/"

/-- A sample url for concrete action specs. -/
def sampleUrl : String := "http://127.0.0.1/on"

/-- A sample payload for concrete action specs. -/
def samplePayload : String := "on"

/-- A concrete action spec. -/
def sampleAction : ActionSpec :=
  { url := sampleUrl, reqType := postName, payload := samplePayload }

/-- A concrete trigger configuration: level 0, pause 5 seconds, one
action. -/
def cfgW : TrigConfig :=
  { level := 0, triggerPauseSec := 5, actions := [sampleAction] }

/- Theorems -/

/-- writeFrame never changes the length of the buffer it writes into. -/
theorem writeFrame_length (frame : List Int) :
    ∀ (buf : List Int) (start : Nat) (buf2 : List Int),
      writeFrame buf start frame = some buf2 → buf2.length = buf.length := by
  induction frame with
  | nil =>
    intro buf start buf2 h
    unfold writeFrame at h
    rw [Option.some.injEq] at h
    subst h
    rfl
  | cons v rest ih =>
    intro buf start buf2 h
    unfold writeFrame at h
    split at h
    next hlt =>
      have h2 := ih (buf.set start v) (start + 1) buf2 h
      rw [h2, List.length_set]
    next => exact absurd h (by simp)

/-- The fill counter stays strictly below len + samplesCount along any
event sequence, as long as it starts there. -/
theorem runCount_lt (len : Nat) (evs : List DetectorEvent) :
    ∀ cnt, cnt < len + samplesCount →
      runCount len cnt evs < len + samplesCount := by
  induction evs with
  | nil =>
    intro cnt h
    exact h
  | cons e es ih =>
    intro cnt h
    cases e with
    | frame =>
      show runCount len (stepCount len cnt .frame) es < len + samplesCount
      apply ih
      show (if len ≤ cnt then cnt else cnt + samplesCount) < len + samplesCount
      split
      · exact h
      · have hs : samplesCount = 128 := rfl
        omega
    | evalDone =>
      show runCount len (stepCount len cnt .evalDone) es < len + samplesCount
      apply ih
      show 0 < len + samplesCount
      have hs : samplesCount = 128 := rfl
      omega

/-- C1: the claim states that after readConfig with
level_trigger.measure_time_ms = m the samplesLevels window has capacity
exactly m × 44100 / 1000.  The code instead allocates a buffer of length
measSampleCount/128 + measSampleCount%128: at m = 1000 the intended
capacity is 44100 samples but the allocated window has length 412. -/
theorem c1_window_capacity_mismatch :
    measSampleCountOf 1000 = 44100 ∧
    (initLevelState 1000).samplesLevels.length = 412 ∧
    samplesLevelsLenOf 1000 ≠ measSampleCountOf 1000 := by
  refine ⟨by decide, ?_, by decide⟩
  simp [initLevelState]
  decide

set_option maxRecDepth 4000 in
/-- C2: the claim states no out-of-bounds write can occur for any
configuration.  With measure_time_ms = 100 the window has length 92 and
the very first 128-sample frame drives the copy loop past the end of the
buffer: the embedded processLevelTrigger reports the index panic (none). -/
theorem c2_out_of_bounds_write :
    samplesLevelsLenOf 100 = 92 ∧
    processLevelTrigger (initLevelState 100) (List.replicate samplesCount 0) =
      none := by
  decide

/-- C6: a frame arriving while the fill count is at or above the window
length is dropped whole: processLevelTrigger returns with the state
unchanged and no evaluation is launched. -/
theorem c6_drop_when_full (st : LevelState) (frame : List Int)
    (h : st.samplesLevels.length ≤ st.samplesBufferCount) :
    processLevelTrigger st frame = some (st, false) := by
  simp [processLevelTrigger, h]

/-- Witness for c6_drop_when_full at a concrete full state. -/
theorem c6_drop_when_full_witness :
    processLevelTrigger ⟨[0, 0], 128⟩ [1, 2, 3] = some (⟨[0, 0], 128⟩, false) :=
  c6_drop_when_full ⟨[0, 0], 128⟩ [1, 2, 3] (by decide)

/-- C10: when the single outbound request of callAction comes back with an
HTTP status at or above 400, callAction returns a nil body and a nil
error: the failure is logged only and never surfaces as an error value. -/
theorem c10_http_error_swallowed (status : Nat) (body : List Nat)
    (h : statusBadRequest ≤ status) :
    callAction (ActionOutcome.httpResp status body) = (none, none) := by
  simp only [callAction, if_pos h]

/-- Witness for c10_http_error_swallowed at status 404. -/
theorem c10_http_error_swallowed_witness :
    callAction (ActionOutcome.httpResp 404 [1, 2]) = (none, none) :=
  c10_http_error_swallowed 404 [1, 2] (by decide)

/-- C8 counterexample: the end-signal is a buffered channel of capacity
one, so a second signal sent while the first is still unconsumed does not
complete: a redundant end-signal set can block the capture loop, refuting
the claim that any number of redundant sets is non-blocking. -/
theorem c8_second_signal_blocks :
    Option.bind (chanSend newChanEnd) chanSend = none := by
  decide

/-- C8 amended: on the capacity-one end-signal channel a send blocks
exactly when a signal is already buffered; after the connection handler
receives, one further signal again completes without blocking (and a send
never panics: it either completes or blocks). -/
theorem c8_end_signal_buffer (c : BoolChan) (hcap : c.cap = 1)
    (hb : c.buffered ≤ c.cap) :
    (chanSend c = none ↔ c.buffered = 1) ∧
    (∀ c2, chanRecv c = some c2 → chanSend c2 = some ⟨1, 1⟩) := by
  have hb1 : c.buffered = 0 ∨ c.buffered = 1 := by omega
  constructor
  · rcases hb1 with h0 | h1
    · simp [chanSend, hcap, h0]
    · simp [chanSend, hcap, h1]
  · intro c2 h2
    rcases hb1 with h0 | h1
    · simp [chanRecv, h0] at h2
    · simp [chanRecv, hcap, h1] at h2
      subst h2
      decide

/-- Witness for c8_end_signal_buffer: with one signal buffered a further
send blocks; after a receive a send completes. -/
theorem c8_end_signal_buffer_witness :
    chanSend ⟨1, 1⟩ = none ∧ chanSend ⟨1, 0⟩ = some ⟨1, 1⟩ := by
  refine ⟨(c8_end_signal_buffer ⟨1, 1⟩ rfl (by decide)).1.mpr rfl, ?_⟩
  exact (c8_end_signal_buffer ⟨1, 1⟩ rfl (by decide)).2 ⟨1, 0⟩ (by decide)

/-- C7: a GET to /stream is answered 201 with the streaming body and any
other path gets http.NotFound, but a non-GET request to /stream never
terminates: streamHandler hands it back to the default mux, which routes
/stream to streamHandler again — infinite mutual recursion, modelled by
the fuel running out for every fuel value. -/
theorem c7_routing :
    (∀ fuel : Nat,
      serveMux fuel ⟨Method.other postName, streamPath⟩ = none) ∧
    (∀ fuel : Nat,
      serveMux (fuel + 1) ⟨Method.GET, streamPath⟩ = some streamResponse) ∧
    (∀ (fuel : Nat) (m : Method) (p : String), p ≠ streamPath →
      serveMux (fuel + 1) ⟨m, p⟩ = some notFoundResponse) := by
  refine ⟨?_, ?_, ?_⟩
  · intro fuel
    induction fuel with
    | zero => rfl
    | succ n ih => simpa [serveMux, streamHandler] using ih
  · intro fuel
    simp [serveMux, streamHandler]
  · intro fuel m p hp
    simp [serveMux, hp]

/-- Witness for c7_routing: a GET to the root path is answered not-found,
and a POST to /stream exhausts any fuel. -/
theorem c7_routing_witness :
    serveMux 1 ⟨Method.GET, rootPath⟩ = some notFoundResponse ∧
    serveMux 3 ⟨Method.other postName, streamPath⟩ = none :=
  ⟨c7_routing.2.2 0 Method.GET rootPath (by decide), c7_routing.1 3⟩

set_option maxRecDepth 8000 in
/-- C3 counterexample: with measure_time_ms = 1000 the window has length
412; after four 128-sample frames the fill count is 512, which exceeds the
configured capacity 412, refuting the claim that the fill count never
exceeds the length of samplesLevels. -/
theorem c3_count_exceeds_capacity :
    Option.map LevelState.samplesBufferCount
        (runFrames (initLevelState 1000)
          (List.replicate 4 (List.replicate samplesCount 0))) = some 512 ∧
    (initLevelState 1000).samplesLevels.length = 412 ∧ 412 < 512 := by
  decide

/-- C3 amended: the fill count can overshoot the capacity by up to
samplesCount − 1 but never more: along every sequence of frame arrivals
and evaluation resets it stays below capacity + samplesCount; and
processLevelTrigger launches an evaluation exactly when a call moves the
fill count from strictly below the capacity to at or above it (so frames
arriving on a full window are dropped without launching another
evaluation until the running one resets the counter). -/
theorem c3_fill_invariant_and_launch :
    (∀ (len : Nat) (evs : List DetectorEvent),
      runCount len 0 evs < len + samplesCount) ∧
    (∀ (st st2 : LevelState) (frame : List Int) (launch : Bool),
      processLevelTrigger st frame = some (st2, launch) →
        st2.samplesBufferCount =
          stepCount st.samplesLevels.length st.samplesBufferCount .frame ∧
        st2.samplesLevels.length = st.samplesLevels.length ∧
        (launch = true ↔
          st.samplesBufferCount < st.samplesLevels.length ∧
            st.samplesLevels.length ≤ st2.samplesBufferCount)) := by
  constructor
  · intro len evs
    apply runCount_lt
    have hs : samplesCount = 128 := rfl
    omega
  · intro st st2 frame launch h
    unfold processLevelTrigger at h
    split at h
    next hfull =>
      rw [Option.some.injEq, Prod.mk.injEq] at h
      obtain ⟨h1, h2⟩ := h
      subst h1
      subst h2
      refine ⟨?_, rfl, ?_⟩
      · show st.samplesBufferCount =
          if st.samplesLevels.length ≤ st.samplesBufferCount then
            st.samplesBufferCount
          else st.samplesBufferCount + samplesCount
        rw [if_pos hfull]
      · simp only [Bool.false_eq_true, false_iff]
        intro hcon
        omega
    next hnotfull =>
      dsimp only at h
      rcases hw : writeFrame st.samplesLevels
          (st.samplesBufferCount / samplesCount) frame with _ | buf
      · rw [hw] at h
        exact absurd h (by simp)
      · rw [hw] at h
        rw [Option.some.injEq, Prod.mk.injEq] at h
        obtain ⟨h1, h2⟩ := h
        subst h1
        subst h2
        have hlen := writeFrame_length frame st.samplesLevels
          (st.samplesBufferCount / samplesCount) buf hw
        refine ⟨?_, hlen, ?_⟩
        · show st.samplesBufferCount + samplesCount =
            if st.samplesLevels.length ≤ st.samplesBufferCount then
              st.samplesBufferCount
            else st.samplesBufferCount + samplesCount
          rw [if_neg hnotfull]
        · rw [decide_eq_true_eq, hlen]
          constructor
          · intro hle
            exact ⟨by omega, hle⟩
          · intro hcon
            exact hcon.2

/-- Witness for c3_fill_invariant_and_launch: a concrete two-slot window
is filled by one frame and the launch flag matches the crossing
condition. -/
theorem c3_fill_invariant_and_launch_witness :
    stepCount 2 0 DetectorEvent.frame = 128 ∧
    (true = true ↔ 0 < 2 ∧ 2 ≤ 128) := by
  have h := c3_fill_invariant_and_launch.2 ⟨[0, 0], 0⟩ ⟨[5, 0], 128⟩ [5] true
    (by decide)
  exact ⟨h.1.symm, h.2.2⟩

/-- For samples strictly above the int16 minimum, the wrapped abs of the
source agrees with the mathematical absolute value. -/
theorem abs_eq_natAbs (v : Int) (h : minInt16 < v) : abs v = (v.natAbs : Int) := by
  unfold abs negInt16 minInt16 at *
  split
  · split
    · omega
    · omega
  · omega

/-- Dividing each mapped absolute value before summing equals dividing the
sum once. -/
theorem sum_map_natAbs_div (l : List Int) (c : ℚ) :
    (l.map (fun v => ((v.natAbs : ℚ)) / c)).sum =
      (l.map (fun v => ((v.natAbs : ℚ)))).sum / c := by
  induction l with
  | nil => simp
  | cons v vs ih => simp [ih, add_div]

/-- C4 counterexample: a window holding the single sample -32768 makes
checkLevels compute a negative mean, because the int16 negation of -32768
wraps to -32768; the computed value is neither the claimed formula value
nor inside [0, 1]. -/
theorem c4_min_sample_negative_mean :
    meanOf [minInt16] < 0 ∧ meanOf [minInt16] ≠ specMeanOf [minInt16] := by
  constructor
  · norm_num [meanOf, specMeanOf, abs, negInt16, minInt16, maxInt16]
  · norm_num [meanOf, specMeanOf, abs, negInt16, minInt16, maxInt16]

/-- C4 amended: for every non-empty window whose samples lie strictly
above -32768, the mean computed by checkLevels equals
(Σ abs(sample_i) / 32767) / N and lies in [0, 1]; the concrete window
[100, -200, 300, -100] yields exactly 175/32767 ≈ 0.0053, below a
threshold of 1/2. -/
theorem c4_mean_formula_bounded (samples : List Int)
    (hb : ∀ s ∈ samples, minInt16 < s ∧ s ≤ maxInt16) (hne : samples ≠ []) :
    meanOf samples = specMeanOf samples ∧
    0 ≤ meanOf samples ∧ meanOf samples ≤ 1 ∧
    meanOf [100, -200, 300, -100] = 175 / 32767 ∧
    (175 / 32767 : ℚ) < 1 / 2 := by
  have hlen : 0 < ((samples.length : ℚ)) := by
    have hp : 0 < samples.length := List.length_pos.mpr hne
    exact_mod_cast hp
  have hmapeq :
      samples.map (fun v => ((abs v : Int) : ℚ) / ((maxInt16 : Int) : ℚ)) =
        samples.map (fun v => ((v.natAbs : ℚ)) / ((maxInt16 : Int) : ℚ)) := by
    apply List.map_congr_left
    intro a ha
    rw [abs_eq_natAbs a (hb a ha).1, Int.cast_natCast]
  have hmean : meanOf samples =
      (samples.map (fun v => ((v.natAbs : ℚ)) / ((maxInt16 : Int) : ℚ))).sum /
        ((samples.length : ℚ)) := by
    rw [meanOf, hmapeq]
  have hmaxpos : (0 : ℚ) < ((maxInt16 : Int) : ℚ) := by
    norm_num [maxInt16]
  have hnonneg :
      0 ≤ (samples.map (fun v => ((v.natAbs : ℚ)) / ((maxInt16 : Int) : ℚ))).sum := by
    apply List.sum_nonneg
    intro x hx
    simp only [List.mem_map] at hx
    obtain ⟨a, _, rfl⟩ := hx
    exact div_nonneg (by positivity) hmaxpos.le
  have hsum_le :
      (samples.map (fun v => ((v.natAbs : ℚ)) / ((maxInt16 : Int) : ℚ))).sum ≤
        ((samples.length : ℚ)) := by
    have hle1 : ∀ x ∈ samples.map (fun v => ((v.natAbs : ℚ)) / ((maxInt16 : Int) : ℚ)),
        x ≤ 1 := by
      intro x hx
      simp only [List.mem_map] at hx
      obtain ⟨a, ha, rfl⟩ := hx
      rw [div_le_one hmaxpos]
      have h1 := (hb a ha).1
      have h2 := (hb a ha).2
      have hna : a.natAbs ≤ 32767 := by
        unfold minInt16 at h1
        unfold maxInt16 at h2
        omega
      have : ((a.natAbs : ℚ)) ≤ (32767 : ℚ) := by exact_mod_cast hna
      calc ((a.natAbs : ℚ)) ≤ (32767 : ℚ) := this
        _ = ((maxInt16 : Int) : ℚ) := by norm_num [maxInt16]
    have hcard := List.sum_le_card_nsmul
      (samples.map (fun v => ((v.natAbs : ℚ)) / ((maxInt16 : Int) : ℚ))) 1 hle1
    simpa using hcard
  refine ⟨?_, ?_, ?_,
    by norm_num [meanOf, abs, negInt16, minInt16, maxInt16], by norm_num⟩
  · rw [hmean, sum_map_natAbs_div, specMeanOf]
  · rw [hmean]
    exact div_nonneg hnonneg hlen.le
  · rw [hmean, div_le_one hlen]
    exact hsum_le

/-- Witness for c4_mean_formula_bounded at the specification window
[100, -200, 300, -100]. -/
theorem c4_mean_formula_bounded_witness :
    meanOf [100, -200, 300, -100] = specMeanOf [100, -200, 300, -100] ∧
    0 ≤ meanOf [100, -200, 300, -100] ∧
    meanOf [100, -200, 300, -100] ≤ 1 ∧
    meanOf [100, -200, 300, -100] = 175 / 32767 ∧
    (175 / 32767 : ℚ) < 1 / 2 :=
  c4_mean_formula_bounded [100, -200, 300, -100] (by decide) (by decide)

/-- C5: checkLevels fires exactly when the mean reaches the configured
level and the configured pause has elapsed since the last fire; firing
dispatches the configured actions and resets the timestamp to now, so a
second window meeting the threshold within the cooldown period does not
fire; a non-firing evaluation leaves the timestamp unchanged. -/
theorem c5_fire_iff_cooldown (cfg : TrigConfig) (samples : List Int)
    (ts now now2 : Int) :
    ((checkLevels cfg samples ts now).fired = true ↔
      (cfg.level ≤ meanOf samples ∧ cfg.triggerPauseSec ≤ now - ts)) ∧
    ((checkLevels cfg samples ts now).fired = true →
      (checkLevels cfg samples ts now).dispatched = cfg.actions ∧
      (checkLevels cfg samples ts now).triggerTimestamp = now) ∧
    ((checkLevels cfg samples ts now).fired = false →
      (checkLevels cfg samples ts now).triggerTimestamp = ts) ∧
    ((checkLevels cfg samples ts now).fired = true →
      now2 - now < cfg.triggerPauseSec →
      ∀ samples2 : List Int,
        (checkLevels cfg samples2
            (checkLevels cfg samples ts now).triggerTimestamp now2).fired =
          false) := by
  by_cases hc : cfg.level ≤ meanOf samples ∧ cfg.triggerPauseSec ≤ now - ts
  · have hno : ∀ samples2 : List Int, now2 - now < cfg.triggerPauseSec →
        ¬(cfg.level ≤ meanOf samples2 ∧ cfg.triggerPauseSec ≤ now2 - now) := by
      intro samples2 hlt hcon
      have h2 := hcon.2
      omega
    refine ⟨by simp [checkLevels, hc], by simp [checkLevels, hc],
      by simp [checkLevels, hc], ?_⟩
    intro _ hlt samples2
    simp [checkLevels, hc, hno samples2 hlt]
  · exact ⟨by simp [checkLevels, hc], by simp [checkLevels, hc],
      by simp [checkLevels, hc], by simp [checkLevels, hc]⟩

/-- Witness for c5_fire_iff_cooldown: with level 0 and pause 5, a window
at time 5 fires; a second evaluation at time 7 (2 seconds later, inside
the cooldown) does not. -/
theorem c5_fire_iff_cooldown_witness :
    (checkLevels cfgW [0] 0 5).fired = true ∧
    (checkLevels cfgW [0]
        (checkLevels cfgW [0] 0 5).triggerTimestamp 7).fired = false := by
  have hfire : (checkLevels cfgW [0] 0 5).fired = true :=
    (c5_fire_iff_cooldown cfgW [0] 0 5 7).1.mpr
      (by norm_num [cfgW, meanOf, abs, negInt16, minInt16, maxInt16])
  exact ⟨hfire,
    (c5_fire_iff_cooldown cfgW [0] 0 5 7).2.2.2 hfire (by norm_num [cfgW]) [0]⟩

/-- C9: each firing dispatches exactly one outbound request per configured
action; the detector result (dispatch list, cooldown timestamp) is the
same whatever the network outcomes are, so a failed action is never
retried, does not disturb sibling actions, and the cooldown is advanced
at dispatch time regardless of delivery. -/
theorem c9_one_request_per_action (cfg : TrigConfig) (samples : List Int)
    (ts now : Int) (o1 o2 : ActionSpec → ActionOutcome) :
    (fireAndDispatch cfg samples ts now o1).1 =
      (fireAndDispatch cfg samples ts now o2).1 ∧
    ((checkLevels cfg samples ts now).fired = true →
      (checkLevels cfg samples ts now).dispatched = cfg.actions ∧
      (checkLevels cfg samples ts now).triggerTimestamp = now) ∧
    (fireAndDispatch cfg samples ts now o1).2.length =
      (checkLevels cfg samples ts now).dispatched.length ∧
    (∀ i : Nat,
      ((fireAndDispatch cfg samples ts now o1).2)[i]? =
        Option.map (fun a => callAction (o1 a))
          ((checkLevels cfg samples ts now).dispatched[i]?)) := by
  refine ⟨rfl, ?_, ?_, ?_⟩
  · intro h
    by_cases hc : cfg.level ≤ meanOf samples ∧ cfg.triggerPauseSec ≤ now - ts
    · simp [checkLevels, hc]
    · simp [checkLevels, hc] at h
  · simp [fireAndDispatch, dispatchAll]
  · intro i
    simp [fireAndDispatch, dispatchAll, List.getElem?_map]

/-- Witness for c9_one_request_per_action: the concrete configuration
fires at time 5 and dispatches exactly its configured action list with the
timestamp advanced to 5. -/
theorem c9_one_request_per_action_witness :
    (checkLevels cfgW [0] 0 5).dispatched = cfgW.actions ∧
    (checkLevels cfgW [0] 0 5).triggerTimestamp = 5 :=
  (c9_one_request_per_action cfgW [0] 0 5
      (fun _ => ActionOutcome.httpResp 200 [])
      (fun _ => ActionOutcome.httpResp 500 [])).2.1
    (by norm_num [checkLevels, cfgW, meanOf, abs, negInt16, minInt16, maxInt16])

end Babymonitor
